import Mathlib

/- Shallow embedding of the macOS accessibility warm-up utility:
   src/macos_ax_initializer.py (class AXInitializer and its main) and
   src/github_warmup_AX.py (the module-level functions and its main).
   Pure decision logic is embedded directly; the PyObjC binding layer is
   modelled as explicit behaviour values (what each platform call returns
   or raises), and each try/except of the source becomes a match on those
   values. -/

/-- Exceptions raised by the PyObjC binding layer, as far as the code
distinguishes them: a TypeError (the calling-convention mismatch the
wrappers catch separately) or any other exception. -/
inductive PyExn where
  | typeError
  | other
deriving DecidableEq

/-- Value returned by one AXUIElementCopyAttributeValue call when it does not
raise: either a 2-tuple (error_code, value) or a bare value, matching the
test isinstance(result, tuple) and len(result) == 2 performed by both
wrappers.  The attribute value itself is modelled as an optional string
(None or a role string). -/
inductive PyVal where
  | tup (err : Int) (val : Option String)
  | bare (val : Option String)
deriving DecidableEq

/-- Behaviour of the binding call AXUIElementCopyAttributeValue on one
accessibility element: what the call does under the three-argument and under
the two-argument calling convention. -/
structure Binding where
  threeArg : Except PyExn PyVal
  twoArg : Except PyExn PyVal

/-- Behaviour of the binding layer for one process id: whether
AXUIElementCreateApplication raises, and the attribute-read behaviour of the
element it creates. -/
structure PidBehavior where
  createRaises : Bool
  ax : Binding

/-- ASCII lowering of a string, the part of Python str.lower relevant to the
names this tool manipulates. -/
def pyLower (s : String) : String := String.mk (s.toList.map Char.toLower)

/-- Substring containment on character lists. -/
def listContainsSub (needle hay : List Char) : Bool :=
  (List.range (hay.length + 1)).any (fun i => needle.isPrefixOf (hay.drop i))

/-- Python expression needle in hay for strings. -/
def pyIn (needle hay : String) : Bool := listContainsSub needle.toList hay.toList

/-- Python truthiness of an attribute value: None and the empty string are
falsy. -/
def truthy : Option String → Bool
  | none => false
  | some s => s != ""

/-- Interpretation shared by both wrappers for a binding result that did not
raise: a 2-tuple is returned as is, a bare value is paired with error code
0 (interpreted as success). -/
def interpVal : PyVal → Int × Option String
  | .tup e v => (e, v)
  | .bare v => (0, v)

/-- Embedding of ax_copy_attribute_value_robust (github_warmup_AX.py): try the
three-argument convention; on TypeError fall back to the two-argument
convention; any other exception, or any exception from the fallback, yields
(-1, None).  Every path of the source returns, so no arm propagates. -/
def ax_copy_attribute_value_robust (b : Binding) : Except PyExn (Int × Option String) :=
  match b.threeArg with
  | .ok v => .ok (interpVal v)
  | .error .typeError =>
    match b.twoArg with
    | .ok v => .ok (interpVal v)
    | .error _ => .ok (-1, none)
  | .error .other => .ok (-1, none)

/-- Embedding of AXInitializer._ax_get_role_robust (macos_ax_initializer.py):
only the two-argument convention is attempted, and any exception is mapped
to (-25212, None). -/
def ax_get_role_robust (b : Binding) : Except PyExn (Int × Option String) :=
  match b.twoArg with
  | .ok v => .ok (interpVal v)
  | .error _ => .ok (-25212, none)

/-- Embedding of has_accessibility_permission (github_warmup_AX.py): the
AXIsProcessTrusted outcome (a boolean, or the exception it raises) is the
input; the try/except converts any exception to False. -/
def has_accessibility_permission (t : Except PyExn Bool) : Except PyExn Bool :=
  match t with
  | .ok b => .ok b
  | .error _ => .ok false

/-- Embedding of AXInitializer.check_accessibility_permissions
(macos_ax_initializer.py): the call to AXIsProcessTrusted has no surrounding
try/except, so an exception raised by the trust query propagates to the
caller; a boolean result is returned as is (after logging). -/
def check_accessibility_permissions (t : Except PyExn Bool) : Except PyExn Bool :=
  match t with
  | .ok b => .ok b
  | .error e => .error e

/-- One running-application record, as the dataclass AppInfo. -/
structure AppInfo where
  name : String
  pid : Int
  bundle_id : String
deriving DecidableEq

/-- One entry of NSWorkspace.runningApplications as the code reads it:
localizedName (possibly absent or empty), processIdentifier and
bundleIdentifier (possibly absent). -/
structure RawApp where
  localizedName : Option String
  pid : Int
  bundleIdentifier : Option String
deriving DecidableEq

/-- Lexicographic comparison of character lists by code point, the order
Python uses when comparing the lowered name keys. -/
def charsLe : List Char → List Char → Bool
  | [], _ => true
  | _ :: _, [] => false
  | a :: as, b :: bs =>
    if a.toNat < b.toNat then true
    else if b.toNat < a.toNat then false
    else charsLe as bs

/-- Sort key order of get_running_applications: by the lowered name. -/
def nameKeyLe (a b : AppInfo) : Prop :=
  charsLe (pyLower a.name).toList (pyLower b.name).toList = true

instance : DecidableRel nameKeyLe := fun a b =>
  instDecidableEqBool (charsLe (pyLower a.name).toList (pyLower b.name).toList) true

/-- Record-building pass of AXInitializer.get_running_applications before
sorting: keep only workspace entries whose localizedName is truthy (present
and non-empty) and build AppInfo records, bundle_id defaulting to the empty
string. -/
def namedApps (ws : List RawApp) : List AppInfo :=
  ws.filterMap (fun r =>
    match r.localizedName with
    | some n => if n != "" then some ⟨n, r.pid, r.bundleIdentifier.getD ""⟩ else none
    | none => none)

/-- Embedding of AXInitializer.get_running_applications: the named records
sorted by the lowered name.  Python's sorted is a stable sort; it is
modelled by the stable insertion sort, which returns the same list for this
total preorder. -/
def get_running_applications (ws : List RawApp) : List AppInfo :=
  List.insertionSort nameKeyLe (namedApps ws)

/-- Embedding of find_targets (github_warmup_AX.py): keep, in input order,
every (name, pid) whose lowered name contains some lowered fragment. -/
def find_targets (running : List (String × Int)) (fragments : List String) : List (String × Int) :=
  let fragments_l := fragments.map pyLower
  running.filter (fun np => fragments_l.any (fun f => pyIn f (pyLower np.1)))

/-- Inner loop of AXInitializer.find_apps_by_names: the first app whose
lowered name contains the lowered target, if any (the loop breaks after the
first append). -/
def findFirstApp (apps : List AppInfo) (target_lower : String) : Option AppInfo :=
  match apps with
  | [] => none
  | a :: rest =>
    if pyIn target_lower (pyLower a.name) then some a else findFirstApp rest target_lower

/-- Outer loop of AXInitializer.find_apps_by_names: for each target fragment
in turn, append the first matching app when there is one. -/
def findAppsLoop (all_apps : List AppInfo) : List String → List AppInfo
  | [] => []
  | t :: rest =>
    match findFirstApp all_apps (pyLower t) with
    | some a => a :: findAppsLoop all_apps rest
    | none => findAppsLoop all_apps rest

/-- Embedding of AXInitializer.find_apps_by_names. -/
def find_apps_by_names (ws : List RawApp) (target_names : List String) : List AppInfo :=
  findAppsLoop (get_running_applications ws) target_names

/-- Background/helper marker substrings from the source tuple. -/
def helperMarkers : List String := ["Helper", "Networking", "Service"]

/-- Helper test from the source: any(substr.lower() in app.name.lower() for
substr in ("Helper", "Networking", "Service")). -/
def isHelperApp (a : AppInfo) : Bool :=
  helperMarkers.any (fun s => pyIn (pyLower s) (pyLower a.name))

/-- The ELECTRON_APPS constant of class AXInitializer. -/
def ELECTRON_APPS : List String :=
  ["claude", "chatgpt", "slack", "discord", "notion", "cursor",
   "visual studio code", "spotify", "whatsapp", "telegram",
   "figma", "obsidian", "typora", "mark text"]

/-- Candidate test of initialize_electron_apps: any(electron_name in
app.name.lower() for electron_name in self.ELECTRON_APPS). -/
def electronNameMatch (a : AppInfo) : Bool :=
  ELECTRON_APPS.any (fun e => pyIn e (pyLower a.name))

/-- Embedding of AXInitializer.initialize_app_accessibility for one app: an
exception from AXUIElementCreateApplication (or one escaping the read, which
never happens) is caught by the outer try and classified failure; otherwise
the pair returned by the robust read is classified success on error code 0
with a truthy role, partial on error code -25212, failure otherwise. -/
def initialize_app_accessibility (b : PidBehavior) : String :=
  if b.createRaises then "failure"
  else
    match ax_get_role_robust b.ax with
    | .error _ => "failure"
    | .ok (error_code, role) =>
      if error_code == 0 && truthy role then "success"
      else if error_code == -25212 then "partial"
      else "failure"

/-- Embedding of warm_up_app (github_warmup_AX.py): True exactly when the
robust read reports error 0 with a truthy role; any exception caught by the
outer try yields False. -/
def warm_up_app (b : PidBehavior) : Bool :=
  if b.createRaises then false
  else
    match ax_copy_attribute_value_robust b.ax with
    | .error _ => false
    | .ok (err, role) => err == 0 && truthy role

/-- Python dict assignment results[k] = v on an association list: overwrite
in place when the key is present, append otherwise (dict insertion-order
semantics). -/
def dictInsert (k v : String) : List (String × String) → List (String × String)
  | [] => [(k, v)]
  | kv :: rest => if kv.1 == k then (kv.1, v) :: rest else kv :: dictInsert k v rest

/-- Loop of AXInitializer.initialize_multiple_apps over the filtered apps:
returns the attempt trace in processing order together with the final
results dict. -/
def warmLoop (beh : Int → PidBehavior) :
    List AppInfo → List (String × String) → List (AppInfo × String) × List (String × String)
  | [], acc => ([], acc)
  | a :: rest, acc =>
    let status := initialize_app_accessibility (beh a.pid)
    let p := warmLoop beh rest (dictInsert a.name status acc)
    ((a, status) :: p.1, p.2)

/-- One batch warm-up session: the ordered attempts, the results dict keyed
by display name, and the skipped records. -/
structure MultiResult where
  trace : List (AppInfo × String)
  results : List (String × String)
  skipped : List AppInfo
deriving DecidableEq

/-- Helper filter of initialize_multiple_apps. -/
def filteredApps (app_infos : List AppInfo) : List AppInfo :=
  app_infos.filter (fun a => !(isHelperApp a))

/-- Embedding of AXInitializer.initialize_multiple_apps: on an empty input
return the empty dict at once; otherwise split the input into filtered apps
and skipped apps (the source recomputes skipped via membership in the
filtered list), then run the warm-up loop over the filtered apps. -/
def initialize_multiple_apps (beh : Int → PidBehavior) (app_infos : List AppInfo) : MultiResult :=
  if app_infos.isEmpty then ⟨[], [], []⟩
  else
    ⟨(warmLoop beh (filteredApps app_infos) []).1,
     (warmLoop beh (filteredApps app_infos) []).2,
     app_infos.filter (fun a => !(decide (a ∈ filteredApps app_infos)))⟩

/-- Candidate selection of initialize_electron_apps: the running apps whose
lowered name contains an ELECTRON_APPS entry and that are not helper apps
(helper candidates are dropped by the continue statement). -/
def electronSelected (ws : List RawApp) : List AppInfo :=
  (get_running_applications ws).filter (fun a => electronNameMatch a && !(isHelperApp a))

/-- Embedding of AXInitializer.initialize_electron_apps: an empty candidate
list returns the empty session at once, otherwise the candidates go through
initialize_multiple_apps. -/
def initialize_electron_apps (beh : Int → PidBehavior) (ws : List RawApp) : MultiResult :=
  if (electronSelected ws).isEmpty then ⟨[], [], []⟩
  else initialize_multiple_apps beh (electronSelected ws)

/-- Candidates selected by the Electron-name test alone, before the helper
exclusion, as the first condition of the loop in initialize_electron_apps
computes them. -/
def electronCandidates (ws : List RawApp) : List AppInfo :=
  (get_running_applications ws).filter electronNameMatch

/-- Embedding of warm_up_targets (github_warmup_AX.py): (0, 0) when nothing
is running or nothing matches, otherwise the success count and the number of
warm-up attempts made by the loop (one per target). -/
def warm_up_targets (beh : Int → PidBehavior) (running : List (String × Int))
    (target_fragments : List String) : Nat × Nat :=
  if running.isEmpty then (0, 0)
  else
    let targets := find_targets running target_fragments
    if targets.isEmpty then (0, 0)
    else (targets.countP (fun np => warm_up_app (beh np.2)), targets.length)

/-- Selection mode of the macOS front end, decided by argument parsing. -/
inductive MacosMode where
  | list
  | apps (fragments : List String)
  | allRunning
  | defaults

/-- Observable outcome of one macOS-front-end run: the exit code, the records
printed by --list, the warm-up session and the number of workspace
enumerations performed. -/
structure MacosRun where
  exit : Int
  printed : List AppInfo
  session : MultiResult
  enums : Nat

/-- Exit-code computation at the end of the macOS main: 0 exactly when the
results dict is non-empty and some status is success. -/
def exitFromResults (results : List (String × String)) : Int :=
  if !(results.isEmpty) && results.any (fun p => p.2 == "success") then 0 else 1

/-- Embedding of main (macos_ax_initializer.py) after argument parsing: the
permission-gate outcome, the selection mode, the workspace contents and the
per-pid binding behaviour determine the run's observables. -/
def macosMain (gate : Bool) (mode : MacosMode) (ws : List RawApp)
    (beh : Int → PidBehavior) : MacosRun :=
  if !gate then ⟨1, [], ⟨[], [], []⟩, 0⟩
  else
    match mode with
    | .list => ⟨0, get_running_applications ws, ⟨[], [], []⟩, 1⟩
    | .apps fragments =>
      let target_apps := find_apps_by_names ws fragments
      if target_apps.isEmpty then ⟨1, [], ⟨[], [], []⟩, 1⟩
      else
        let r := initialize_multiple_apps beh target_apps
        ⟨exitFromResults r.results, [], r, 1⟩
    | .allRunning =>
      let r := initialize_multiple_apps beh (get_running_applications ws)
      ⟨exitFromResults r.results, [], r, 1⟩
    | .defaults =>
      let r := initialize_electron_apps beh ws
      ⟨exitFromResults r.results, [], r, 1⟩

/-- Observable outcome of one github-front-end run. -/
structure GithubRun where
  exit : Int
  successes : Nat
  attempts : Nat
  enums : Nat

/-- Embedding of main (github_warmup_AX.py) after argument parsing: the gate
failure exits 1 before any enumeration; otherwise warm_up_targets runs once
and both branches of the final conditional return 0. -/
def githubMain (gate : Bool) (running : List (String × Int)) (fragments : List String)
    (beh : Int → PidBehavior) : GithubRun :=
  if !gate then ⟨1, 0, 0, 0⟩
  else
    let p := warm_up_targets beh running fragments
    ⟨if p.1 > 0 then 0 else 0, p.1, p.2, 1⟩

/- Helper lemmas about the embedded definitions. -/

/-- Matching test of find_targets for one name against a fragment list. -/
def fragMatch (fragments : List String) (name : String) : Bool :=
  (fragments.map pyLower).any (fun f => pyIn f (pyLower name))

theorem charsLe_total : ∀ (a b : List Char), charsLe a b = true ∨ charsLe b a = true := by
  intro a
  induction a with
  | nil => intro b; left; rfl
  | cons x xs ih =>
    intro b
    cases b with
    | nil => right; rfl
    | cons y ys =>
      simp only [charsLe]
      by_cases hxy : x.toNat < y.toNat
      · left; simp [hxy]
      · by_cases hyx : y.toNat < x.toNat
        · right; simp [hyx]
        · rcases ih ys with h | h
          · left; simp [hxy, hyx, h]
          · right; simp [hxy, hyx, h]

theorem charsLe_trans : ∀ (a b c : List Char),
    charsLe a b = true → charsLe b c = true → charsLe a c = true := by
  intro a
  induction a with
  | nil => intro b c _ _; rfl
  | cons x xs ih =>
    intro b c hab hbc
    cases b with
    | nil => exact absurd hab (by simp [charsLe])
    | cons y ys =>
      cases c with
      | nil => exact absurd hbc (by simp [charsLe])
      | cons z zs =>
        simp only [charsLe] at hab hbc ⊢
        by_cases hxy : x.toNat < y.toNat
        · by_cases hyz : y.toNat < z.toNat
          · simp [show x.toNat < z.toNat by omega]
          · by_cases hzy : z.toNat < y.toNat
            · simp [hyz, hzy] at hbc
            · simp [show x.toNat < z.toNat by omega]
        · by_cases hyx : y.toNat < x.toNat
          · simp [hxy, hyx] at hab
          · simp only [hxy, hyx, if_neg, ite_false] at hab
            by_cases hyz : y.toNat < z.toNat
            · simp [show x.toNat < z.toNat by omega]
            · by_cases hzy : z.toNat < y.toNat
              · simp [hyz, hzy] at hbc
              · simp only [hyz, hzy, if_neg, ite_false] at hbc
                have h1 : ¬ x.toNat < z.toNat := by omega
                have h2 : ¬ z.toNat < x.toNat := by omega
                simp only [h1, h2, if_neg, ite_false]
                exact ih ys zs hab hbc

instance : IsTotal AppInfo nameKeyLe := ⟨fun _ _ => charsLe_total _ _⟩

instance : IsTrans AppInfo nameKeyLe := ⟨fun _ _ _ => charsLe_trans _ _ _⟩

theorem findAppsLoop_eq (all_apps : List AppInfo) : ∀ (ts : List String),
    findAppsLoop all_apps ts = ts.filterMap (fun t => findFirstApp all_apps (pyLower t)) := by
  intro ts
  induction ts with
  | nil => rfl
  | cons t rest ih =>
    simp only [findAppsLoop, List.filterMap_cons]
    cases findFirstApp all_apps (pyLower t) with
    | none => exact ih
    | some a => simp [ih]

theorem warmLoop_fst (beh : Int → PidBehavior) : ∀ (apps : List AppInfo) (acc : List (String × String)),
    (warmLoop beh apps acc).1 =
      apps.map (fun a => (a, initialize_app_accessibility (beh a.pid))) := by
  intro apps
  induction apps with
  | nil => intro acc; rfl
  | cons a rest ih =>
    intro acc
    simp only [warmLoop, List.map_cons]
    rw [ih]

theorem lookup_dictInsert (k v : String) : ∀ (l : List (String × String)) (n : String),
    (dictInsert k v l).lookup n = if n = k then some v else l.lookup n := by
  intro l
  induction l with
  | nil =>
    intro n
    by_cases h : n = k
    · simp [dictInsert, List.lookup, h]
    · simp [dictInsert, List.lookup, h, (by simpa using h : (n == k) = false)]
  | cons kv rest ih =>
    obtain ⟨k1, v1⟩ := kv
    intro n
    by_cases hk : k1 = k
    · subst hk
      by_cases h : n = k1
      · simp [dictInsert, List.lookup, h]
      · simp [dictInsert, List.lookup, h, (by simpa using h : (n == k1) = false)]
    · have hbk : (k1 == k) = false := by simpa using hk
      by_cases h : n = k1
      · simp [dictInsert, List.lookup, hbk, h, hk]
      · have hnk1 : (n == k1) = false := by simpa using h
        simp [dictInsert, List.lookup, hbk, hnk1, ih n]

theorem mem_keys_dictInsert (k v : String) : ∀ (l : List (String × String)) (n : String),
    (n ∈ (dictInsert k v l).map Prod.fst) ↔ (n ∈ l.map Prod.fst ∨ n = k) := by
  intro l
  induction l with
  | nil => intro n; simp [dictInsert]
  | cons kv rest ih =>
    obtain ⟨k1, v1⟩ := kv
    intro n
    by_cases hk : k1 = k
    · subst hk
      simp only [dictInsert, beq_self_eq_true, if_true, List.map_cons, List.mem_cons]
      tauto
    · have hbk : (k1 == k) = false := by simpa using hk
      simp only [dictInsert, hbk, Bool.false_eq_true, if_false, List.map_cons, List.mem_cons,
        ih n]
      tauto

theorem nodup_keys_dictInsert (k v : String) : ∀ (l : List (String × String)),
    (l.map Prod.fst).Nodup → ((dictInsert k v l).map Prod.fst).Nodup := by
  intro l
  induction l with
  | nil => intro _; simp [dictInsert]
  | cons kv rest ih =>
    obtain ⟨k1, v1⟩ := kv
    intro h
    simp only [List.map_cons, List.nodup_cons] at h
    by_cases hk : k1 = k
    · subst hk
      simp only [dictInsert, beq_self_eq_true, if_true, List.map_cons, List.nodup_cons]
      exact ⟨h.1, h.2⟩
    · have hbk : (k1 == k) = false := by simpa using hk
      simp only [dictInsert, hbk, Bool.false_eq_true, if_false, List.map_cons, List.nodup_cons]
      refine ⟨?_, ih h.2⟩
      rw [mem_keys_dictInsert]
      rintro (hmem | he)
      · exact h.1 hmem
      · exact hk he

theorem mem_vals_dictInsert (k v : String) : ∀ (l : List (String × String)) (p : String × String),
    p ∈ dictInsert k v l → p.2 = v ∨ p ∈ l := by
  intro l
  induction l with
  | nil =>
    intro p hp
    simp only [dictInsert, List.mem_singleton] at hp
    exact Or.inl (by rw [hp])
  | cons kv rest ih =>
    obtain ⟨k1, v1⟩ := kv
    intro p hp
    by_cases hk : k1 = k
    · subst hk
      simp only [dictInsert, beq_self_eq_true, if_true, List.mem_cons] at hp
      rcases hp with hp | hp
      · exact Or.inl (by rw [hp])
      · exact Or.inr (List.mem_cons_of_mem _ hp)
    · have hbk : (k1 == k) = false := by simpa using hk
      simp only [dictInsert, hbk, Bool.false_eq_true, if_false, List.mem_cons] at hp
      rcases hp with hp | hp
      · exact Or.inr (by rw [hp]; exact List.mem_cons_self _ _)
      · rcases ih p hp with h | h
        · exact Or.inl h
        · exact Or.inr (List.mem_cons_of_mem _ h)

theorem status_mem_three (b : PidBehavior) :
    initialize_app_accessibility b = "success" ∨ initialize_app_accessibility b = "partial" ∨
      initialize_app_accessibility b = "failure" := by
  unfold initialize_app_accessibility
  by_cases hc : b.createRaises
  · simp [hc]
  · simp only [hc, Bool.false_eq_true, if_false]
    cases hax : ax_get_role_robust b.ax with
    | error e => simp
    | ok p =>
      obtain ⟨e, r⟩ := p
      by_cases h1 : (e == 0 && truthy r) = true
      · simp [h1]
      · by_cases h2 : (e == -25212) = true <;> simp [h1, h2]

theorem getLast?_cons_ne_none {α : Type} (x : α) (xs : List α) : (x :: xs).getLast? ≠ none := by
  induction xs generalizing x with
  | nil => simp
  | cons y ys ih => rw [List.getLast?_cons_cons]; exact ih y

theorem warmLoop_lookup (beh : Int → PidBehavior) :
    ∀ (apps : List AppInfo) (acc : List (String × String)) (n : String),
      (warmLoop beh apps acc).2.lookup n =
        match (apps.filter (fun a => a.name == n)).getLast? with
        | some a => some (initialize_app_accessibility (beh a.pid))
        | none => acc.lookup n := by
  intro apps
  induction apps with
  | nil => intro acc n; rfl
  | cons a rest ih =>
    intro acc n
    simp only [warmLoop]
    rw [ih]
    by_cases hrest : (rest.filter (fun x => x.name == n)) = []
    · simp only [hrest, List.getLast?_nil]
      by_cases hn : a.name = n
      · have : (a.name == n) = true := by simpa using hn
        simp only [List.filter_cons, this, if_true, hrest, List.getLast?_singleton]
        rw [lookup_dictInsert]
        simp [hn]
      · have hb : (a.name == n) = false := by simpa using hn
        simp only [List.filter_cons, hb, Bool.false_eq_true, if_false, hrest, List.getLast?_nil]
        rw [lookup_dictInsert]
        have : ¬ n = a.name := fun h => hn h.symm
        simp [this]
    · obtain ⟨x, xs, hxs⟩ := List.exists_cons_of_ne_nil hrest
      simp only [List.filter_cons, hxs]
      by_cases hn : a.name = n
      · rw [if_pos (by simpa using hn), List.getLast?_cons_cons]
        cases hl : (x :: xs).getLast? with
        | none => exact absurd hl (getLast?_cons_ne_none x xs)
        | some y => rfl
      · rw [if_neg (by simpa using hn)]
        cases hl : (x :: xs).getLast? with
        | none => exact absurd hl (getLast?_cons_ne_none x xs)
        | some y => rfl

theorem warmLoop_keys_mem (beh : Int → PidBehavior) :
    ∀ (apps : List AppInfo) (acc : List (String × String)) (n : String),
      n ∈ (warmLoop beh apps acc).2.map Prod.fst ↔
        n ∈ acc.map Prod.fst ∨ n ∈ apps.map AppInfo.name := by
  intro apps
  induction apps with
  | nil => intro acc n; simp [warmLoop]
  | cons a rest ih =>
    intro acc n
    simp only [warmLoop]
    rw [ih, mem_keys_dictInsert]
    simp only [List.map_cons, List.mem_cons]
    tauto

theorem warmLoop_keys_nodup (beh : Int → PidBehavior) :
    ∀ (apps : List AppInfo) (acc : List (String × String)),
      (acc.map Prod.fst).Nodup → ((warmLoop beh apps acc).2.map Prod.fst).Nodup := by
  intro apps
  induction apps with
  | nil => intro acc h; exact h
  | cons a rest ih =>
    intro acc h
    simp only [warmLoop]
    exact ih _ (nodup_keys_dictInsert _ _ _ h)

theorem warmLoop_vals (beh : Int → PidBehavior) :
    ∀ (apps : List AppInfo) (acc : List (String × String)),
      (∀ p ∈ acc, p.2 = "success" ∨ p.2 = "partial" ∨ p.2 = "failure") →
      ∀ p ∈ (warmLoop beh apps acc).2, p.2 = "success" ∨ p.2 = "partial" ∨ p.2 = "failure" := by
  intro apps
  induction apps with
  | nil => intro acc h; exact h
  | cons a rest ih =>
    intro acc h
    simp only [warmLoop]
    refine ih _ ?_
    intro p hp
    rcases mem_vals_dictInsert _ _ _ _ hp with hv | hv
    · rw [hv]; exact status_mem_three (beh a.pid)
    · exact h p hv

/-- Summary count of the macOS variant for one status value, as the length of
the comprehension over results.items(). -/
def countStatus (res : List (String × String)) (s : String) : Nat :=
  (res.filter (fun p => p.2 == s)).length

theorem count_partition (res : List (String × String))
    (h : ∀ p ∈ res, p.2 = "success" ∨ p.2 = "partial" ∨ p.2 = "failure") :
    countStatus res "success" + countStatus res "partial" + countStatus res "failure" =
      res.length := by
  induction res with
  | nil => rfl
  | cons p rest ih =>
    have hp := h p (List.mem_cons_self _ _)
    have hrest := fun q hq => h q (List.mem_cons_of_mem _ hq)
    have ihr := ih hrest
    simp only [countStatus, List.filter_cons, List.length_cons] at *
    rcases hp with h1 | h1 | h1 <;>
      simp only [h1, beq_self_eq_true, if_true,
        (by decide : (("success" : String) == "partial") = false),
        (by decide : (("success" : String) == "failure") = false),
        (by decide : (("partial" : String) == "success") = false),
        (by decide : (("partial" : String) == "failure") = false),
        (by decide : (("failure" : String) == "success") = false),
        (by decide : (("failure" : String) == "partial") = false),
        Bool.false_eq_true, if_false, List.length_cons] <;> omega

theorem exitFromResults_eq_zero (res : List (String × String)) :
    exitFromResults res = 0 ↔ res.any (fun p => p.2 == "success") = true := by
  unfold exitFromResults
  by_cases hany : res.any (fun p => p.2 == "success") = true
  · have hne : res.isEmpty = false := by
      cases res with
      | nil => simp [List.any] at hany
      | cons p rest => rfl
    simp [hne, hany]
  · have hf : res.any (fun p => p.2 == "success") = false := by
      cases h : res.any (fun p => p.2 == "success")
      · rfl
      · exact absurd h hany
    rw [hf, Bool.and_false]
    simp only [Bool.false_eq_true, if_false]
    decide

theorem initialize_multiple_apps_trace (beh : Int → PidBehavior) (app_infos : List AppInfo) :
    (initialize_multiple_apps beh app_infos).trace =
      (filteredApps app_infos).map (fun a => (a, initialize_app_accessibility (beh a.pid))) := by
  unfold initialize_multiple_apps
  by_cases h : app_infos.isEmpty = true
  · have he : app_infos = [] := by
      cases app_infos with
      | nil => rfl
      | cons x xs => simp [List.isEmpty] at h
    subst he
    rfl
  · rw [if_neg h]
    exact warmLoop_fst beh _ []

theorem initialize_multiple_apps_results (beh : Int → PidBehavior) (app_infos : List AppInfo) :
    (initialize_multiple_apps beh app_infos).results =
      (warmLoop beh (filteredApps app_infos) []).2 := by
  unfold initialize_multiple_apps
  by_cases h : app_infos.isEmpty = true
  · have he : app_infos = [] := by
      cases app_infos with
      | nil => rfl
      | cons x xs => simp [List.isEmpty] at h
    subst he
    rfl
  · rw [if_neg h]

theorem initialize_multiple_apps_skipped (beh : Int → PidBehavior) (app_infos : List AppInfo) :
    (initialize_multiple_apps beh app_infos).skipped =
      app_infos.filter (fun a => !(decide (a ∈ filteredApps app_infos))) := by
  unfold initialize_multiple_apps
  by_cases h : app_infos.isEmpty = true
  · have he : app_infos = [] := by
      cases app_infos with
      | nil => rfl
      | cons x xs => simp [List.isEmpty] at h
    subst he
    rfl
  · rw [if_neg h]

theorem initialize_multiple_apps_attempted (beh : Int → PidBehavior) (app_infos : List AppInfo) :
    (initialize_multiple_apps beh app_infos).trace.map Prod.fst = filteredApps app_infos := by
  rw [initialize_multiple_apps_trace, List.map_map]
  exact List.map_id _

theorem mem_filteredApps (l : List AppInfo) (a : AppInfo) :
    a ∈ filteredApps l ↔ a ∈ l ∧ isHelperApp a = false := by
  simp [filteredApps, List.mem_filter]

/- Concrete fixtures used by witnesses and counterexamples. -/

/-- Binding behaviour whose read succeeds with (0, AXWindow) under either
convention. -/
def bOk : Binding := ⟨Except.ok (PyVal.tup 0 (some "AXWindow")), Except.ok (PyVal.tup 0 (some "AXWindow"))⟩

/-- Binding behaviour whose read reports error -25211 under either
convention. -/
def bFail : Binding := ⟨Except.ok (PyVal.tup (-25211) none), Except.ok (PyVal.tup (-25211) none)⟩

/-- Per-pid behaviour: every read succeeds. -/
def behOk : Int → PidBehavior := fun _ => ⟨false, bOk⟩

/-- Per-pid behaviour: every read reports error -25211. -/
def behFail : Int → PidBehavior := fun _ => ⟨false, bFail⟩

/-- Workspace with a helper subprocess, its main app and Finder. -/
def wsSlack : List RawApp :=
  [⟨some "Slack Helper", 100, some "com.tinyspeck.slackmacgap.helper"⟩,
   ⟨some "Slack", 101, some "com.tinyspeck.slackmacgap"⟩,
   ⟨some "Finder", 102, none⟩]

/-- Record built from the Slack entry of wsSlack. -/
def appSlack : AppInfo := ⟨"Slack", 101, "com.tinyspeck.slackmacgap"⟩

/-- Record built from the Slack Helper entry of wsSlack. -/
def appSlackHelper : AppInfo := ⟨"Slack Helper", 100, "com.tinyspeck.slackmacgap.helper"⟩

/-- C1 (amended): under ByFragments selection, the github variant's
find_targets keeps, in the order of the input record list, exactly the
records whose name contains at least one fragment case-insensitively
(soundness and completeness, all matches kept); the macos variant's
find_apps_by_names instead walks the fragments in their own order and keeps
only the first record of the sorted directory matching each fragment. -/
theorem find_targets_exact_and_find_apps_first_only
    (running : List (String × Int)) (fragments : List String)
    (ws : List RawApp) (target_names : List String) :
    (find_targets running fragments).Sublist running ∧
    (∀ np : String × Int, np ∈ find_targets running fragments ↔
      np ∈ running ∧ fragMatch fragments np.1 = true) ∧
    find_apps_by_names ws target_names =
      target_names.filterMap
        (fun t => findFirstApp (get_running_applications ws) (pyLower t)) := by
  refine ⟨List.filter_sublist _, ?_, findAppsLoop_eq _ _⟩
  intro np
  simp [find_targets, fragMatch, List.mem_filter]

/-- Witness for C1 at a concrete input: the record Slack matches the fragment
slack and is selected by find_targets. -/
theorem find_targets_exact_witness :
    ("Slack", (101 : Int)) ∈ find_targets [("Slack", 101), ("Slack Helper", 100)] ["slack"] :=
  ((find_targets_exact_and_find_apps_first_only
      [("Slack", 101), ("Slack Helper", 100)] ["slack"] [] []).2.1 ("Slack", 101)).mpr
    (by decide)

/-- C1 counterexample: with the non-empty fragment list [slack], the record
Slack Helper contains the fragment case-insensitively and is in the
directory, yet find_apps_by_names omits it (the inner loop breaks after the
first match per fragment), so the selection is not the set of all matching
records. -/
theorem find_apps_by_names_drops_matches :
    pyIn (pyLower "slack") (pyLower "Slack Helper") = true ∧
    appSlackHelper ∈ get_running_applications wsSlack ∧
    appSlackHelper ∉ find_apps_by_names wsSlack ["slack"] ∧
    find_apps_by_names wsSlack ["slack"] = [appSlack] := by decide

/-- C2 (amended): classification of one warm-up attempt in
initialize_app_accessibility: a reported pair with error 0 and truthy role
gives success, error -25212 gives partial, any other pair (a non-zero error
other than -25212, or error 0 with an empty or absent role) gives failure;
an exception raised by the binding layer during the attribute read is
converted to (-25212, None) and classified partial, not failure; an
exception from handle creation gives failure; and every attempt is
classified into exactly one of the three statuses. -/
theorem initialize_app_accessibility_classification
    (b : PidBehavior) (e : Int) (v : Option String) :
    (b.createRaises = false → b.ax.twoArg = Except.ok (PyVal.tup e v) → e = 0 →
      truthy v = true → initialize_app_accessibility b = "success") ∧
    (b.createRaises = false → b.ax.twoArg = Except.ok (PyVal.tup e v) → e = -25212 →
      initialize_app_accessibility b = "partial") ∧
    (b.createRaises = false → b.ax.twoArg = Except.ok (PyVal.tup e v) → e ≠ 0 →
      e ≠ -25212 → initialize_app_accessibility b = "failure") ∧
    (b.createRaises = false → b.ax.twoArg = Except.ok (PyVal.tup e v) → e = 0 →
      truthy v = false → initialize_app_accessibility b = "failure") ∧
    (∀ ex : PyExn, b.createRaises = false → b.ax.twoArg = Except.error ex →
      initialize_app_accessibility b = "partial") ∧
    (b.createRaises = true → initialize_app_accessibility b = "failure") ∧
    (initialize_app_accessibility b = "success" ∨
      initialize_app_accessibility b = "partial" ∨
      initialize_app_accessibility b = "failure") := by
  refine ⟨?_, ?_, ?_, ?_, ?_, ?_, status_mem_three b⟩
  · intro hc hax he ht
    subst he
    simp [initialize_app_accessibility, ax_get_role_robust, hc, hax, interpVal, ht]
  · intro hc hax he
    subst he
    simp [initialize_app_accessibility, ax_get_role_robust, hc, hax, interpVal]
  · intro hc hax h0 h25212
    have hb0 : ((e : Int) == 0) = false := by simp [h0]
    have hb2 : ((e : Int) == -25212) = false := by simp [h25212]
    simp [initialize_app_accessibility, ax_get_role_robust, hc, hax, interpVal, hb0, hb2]
  · intro hc hax he ht
    subst he
    simp [initialize_app_accessibility, ax_get_role_robust, hc, hax, interpVal, ht]
  · intro ex hc hax
    simp [initialize_app_accessibility, ax_get_role_robust, hc, hax]
  · intro hc
    simp [initialize_app_accessibility, hc]

/-- Witness for C2 at a concrete input: a read reporting (0, AXWindow) is
classified success. -/
theorem initialize_app_accessibility_classification_witness :
    initialize_app_accessibility ⟨false, bOk⟩ = "success" :=
  (initialize_app_accessibility_classification ⟨false, bOk⟩ 0 (some "AXWindow")).1
    rfl rfl rfl (by decide)

/-- C2 counterexample: an exception raised by the binding layer during the
attribute read is classified partial by the macos variant, not failure as
the claim states. -/
theorem read_exception_classified_partial :
    initialize_app_accessibility ⟨false, ⟨Except.error PyExn.other, Except.error PyExn.other⟩⟩
        = "partial" ∧
    initialize_app_accessibility ⟨false, ⟨Except.error PyExn.other, Except.error PyExn.other⟩⟩
        ≠ "failure" := by decide

/-- C3 (amended): for runs that pass the permission gate, the github
variant's main exits 0 unconditionally, even when at least one target was
attempted and none succeeded; the macos variant's main in the warm-up modes
exits 0 exactly when the per-name results dict records at least one success
(so an empty selection, or one whose candidates are all helper-filtered,
exits 1, and explicitly requested fragments matching nothing exit 1 through
the empty-target branch), and the list mode exits 0. -/
theorem main_exit_codes (running : List (String × Int)) (fragments : List String)
    (mode : MacosMode) (ws : List RawApp) (beh : Int → PidBehavior) :
    (githubMain true running fragments beh).exit = 0 ∧
    (mode ≠ MacosMode.list →
      ((macosMain true mode ws beh).exit = 0 ↔
        (macosMain true mode ws beh).session.results.any
          (fun p => p.2 == "success") = true)) ∧
    (macosMain true MacosMode.list ws beh).exit = 0 := by
  refine ⟨?_, ?_, rfl⟩
  · simp [githubMain]
  · intro hm
    cases mode with
    | list => exact absurd rfl hm
    | apps fragments2 =>
      simp only [macosMain, Bool.not_true, Bool.false_eq_true, if_false]
      by_cases ht : (find_apps_by_names ws fragments2).isEmpty = true
      · rw [if_pos ht]
        simp only [List.any_nil, Bool.false_eq_true, iff_false]
        decide
      · rw [if_neg ht]
        exact exitFromResults_eq_zero _
    | allRunning =>
      simp only [macosMain, Bool.not_true, Bool.false_eq_true, if_false]
      exact exitFromResults_eq_zero _
    | defaults =>
      simp only [macosMain, Bool.not_true, Bool.false_eq_true, if_false]
      exact exitFromResults_eq_zero _

/-- Witness for C3 at a concrete input: a macos run over wsSlack with a
succeeding binding exits 0, by the amended exit rule. -/
theorem main_exit_codes_witness :
    (macosMain true (MacosMode.apps ["slack"]) wsSlack behOk).exit = 0 :=
  ((main_exit_codes [] [] (MacosMode.apps ["slack"]) wsSlack behOk).2.1
      (fun h => MacosMode.noConfusion h)).mpr (by decide)

/-- C3 counterexample: a github-variant run past the gate that attempts one
target and records no success exits 0, where the claim requires exit status
1 when at least one target was attempted and none succeeded. -/
theorem github_main_exit_zero_without_success :
    (githubMain true [("Slack", 5)] ["slack"] behFail).attempts = 1 ∧
    (githubMain true [("Slack", 5)] ["slack"] behFail).successes = 0 ∧
    (githubMain true [("Slack", 5)] ["slack"] behFail).exit = 0 := by decide

/-- C4 (amended): inside initialize_multiple_apps the helper-marked records
are retained as the skipped set and, as sets, skipped together with the
attempted records partitions the input candidate set (their union is the
candidate set and they are disjoint); but in the KnownDefaults flow of
initialize_electron_apps, a helper-marked record matching an Electron name
is dropped during candidate selection and appears in neither the attempted
trace nor the skipped set. -/
theorem skipped_attempted_partition (beh : Int → PidBehavior) (app_infos : List AppInfo)
    (a : AppInfo) (ws : List RawApp) :
    ((a ∈ (initialize_multiple_apps beh app_infos).skipped ∨
        a ∈ ((initialize_multiple_apps beh app_infos).trace.map Prod.fst)) ↔
      a ∈ app_infos) ∧
    ¬(a ∈ (initialize_multiple_apps beh app_infos).skipped ∧
        a ∈ ((initialize_multiple_apps beh app_infos).trace.map Prod.fst)) ∧
    (a ∈ electronCandidates ws → isHelperApp a = true →
      a ∉ (initialize_electron_apps beh ws).skipped ∧
      a ∉ ((initialize_electron_apps beh ws).trace.map Prod.fst)) := by
  have hsk : a ∈ (initialize_multiple_apps beh app_infos).skipped ↔
      a ∈ app_infos ∧ ¬(a ∈ filteredApps app_infos) := by
    rw [initialize_multiple_apps_skipped]
    simp [List.mem_filter]
  have htr : a ∈ ((initialize_multiple_apps beh app_infos).trace.map Prod.fst) ↔
      a ∈ filteredApps app_infos := by
    rw [initialize_multiple_apps_attempted]
  refine ⟨?_, ?_, ?_⟩
  · rw [hsk, htr]
    constructor
    · rintro (⟨h1, _⟩ | h2)
      · exact h1
      · exact (mem_filteredApps app_infos a).mp h2 |>.1
    · intro h
      by_cases hf : a ∈ filteredApps app_infos
      · exact Or.inr hf
      · exact Or.inl ⟨h, hf⟩
  · rw [hsk, htr]
    rintro ⟨⟨_, hnot⟩, hmem⟩
    exact hnot hmem
  · intro _ hhelper
    have hnotin : a ∉ electronSelected ws := by
      intro hmem
      rw [electronSelected, List.mem_filter] at hmem
      rcases hmem with ⟨_, hcond⟩
      rw [Bool.and_eq_true] at hcond
      rcases hcond with ⟨_, hnot⟩
      rw [Bool.not_eq_true'] at hnot
      rw [hnot] at hhelper
      exact Bool.noConfusion hhelper
    unfold initialize_electron_apps
    by_cases he : (electronSelected ws).isEmpty = true
    · rw [if_pos he]
      exact ⟨fun h => List.not_mem_nil a h, fun h => List.not_mem_nil a h⟩
    · rw [if_neg he]
      constructor
      · rw [initialize_multiple_apps_skipped]
        intro hmem
        exact hnotin (List.mem_of_mem_filter hmem)
      · rw [initialize_multiple_apps_attempted]
        intro hmem
        exact hnotin (List.mem_of_mem_filter hmem)

/-- Witness for C4 at a concrete input: the Slack Helper record is a
KnownDefaults candidate (its name contains slack) marked as helper, and a
run over wsSlack leaves it out of both the skipped set and the attempted
trace. -/
theorem skipped_attempted_partition_witness :
    appSlackHelper ∉ (initialize_electron_apps behOk wsSlack).skipped ∧
    appSlackHelper ∉ ((initialize_electron_apps behOk wsSlack).trace.map Prod.fst) :=
  (skipped_attempted_partition behOk [] appSlackHelper wsSlack).2.2 (by decide) (by decide)

/-- C4 counterexample: under the KnownDefaults selection over wsSlack, the
record Slack Helper is in the pre-filter candidate set, yet it is neither in
the session's skipped set nor among the attempted records, so the skipped
set united with the attempted set is not the pre-filter candidate set. -/
theorem electron_flow_drops_helpers_silently :
    appSlackHelper ∈ electronCandidates wsSlack ∧
    appSlackHelper ∉ (initialize_electron_apps behOk wsSlack).skipped ∧
    appSlackHelper ∉ ((initialize_electron_apps behOk wsSlack).trace.map Prod.fst) := by decide

/-- C5: the batch warm-up visits every filtered target in input order and
records an outcome for each: the attempt trace is exactly the per-target
classification map over the filtered targets, its length equals the number
of filtered targets whatever the outcomes are, and the github loop likewise
performs one warm-up attempt per matched target. -/
theorem warm_up_processes_every_target (beh : Int → PidBehavior) (app_infos : List AppInfo)
    (running : List (String × Int)) (fragments : List String) :
    (initialize_multiple_apps beh app_infos).trace =
      (filteredApps app_infos).map (fun a => (a, initialize_app_accessibility (beh a.pid))) ∧
    (initialize_multiple_apps beh app_infos).trace.length = (filteredApps app_infos).length ∧
    (warm_up_targets beh running fragments).2 = (find_targets running fragments).length := by
  refine ⟨initialize_multiple_apps_trace beh app_infos, ?_, ?_⟩
  · rw [initialize_multiple_apps_trace]
    exact List.length_map _ _
  · unfold warm_up_targets
    by_cases hr : running.isEmpty = true
    · rw [if_pos hr]
      have he : running = [] := by
        cases running with
        | nil => rfl
        | cons x xs => simp [List.isEmpty] at hr
      subst he
      rfl
    · rw [if_neg hr]
      by_cases ht : (find_targets running fragments).isEmpty = true
      · rw [if_pos ht]
        have he : find_targets running fragments = [] := by
          cases hft : find_targets running fragments with
          | nil => rfl
          | cons x xs => rw [hft] at ht; simp [List.isEmpty] at ht
        rw [he]
        rfl
      · rw [if_neg ht]

/-- C6 (amended): the github wrapper retries with the two-argument convention
after a TypeError from the three-argument call, so the read's result is the
interpretation of the two-argument call, and a convention mismatch with a
succeeding alternate convention yields a successful warm-up, never a
failure; the macos wrapper attempts only the two-argument convention and
maps any exception, a convention mismatch included, to (-25212, None),
classified partial (not failure) without any retry of the alternate
convention. -/
theorem convention_fallback (b : Binding) (v : PyVal) (role : String) :
    (b.threeArg = Except.error PyExn.typeError → b.twoArg = Except.ok v →
      ax_copy_attribute_value_robust b = Except.ok (interpVal v)) ∧
    (b.threeArg = Except.error PyExn.typeError →
      b.twoArg = Except.ok (PyVal.tup 0 (some role)) → role ≠ "" →
      warm_up_app ⟨false, b⟩ = true) ∧
    (∀ ex : PyExn, b.twoArg = Except.error ex →
      ax_get_role_robust b = Except.ok (-25212, none) ∧
      initialize_app_accessibility ⟨false, b⟩ = "partial") := by
  refine ⟨?_, ?_, ?_⟩
  · intro h3 h2
    simp [ax_copy_attribute_value_robust, h3, h2]
  · intro h3 h2 hrole
    simp [warm_up_app, ax_copy_attribute_value_robust, h3, h2, interpVal, truthy, hrole]
  · intro ex h2
    constructor
    · simp [ax_get_role_robust, h2]
    · simp [initialize_app_accessibility, ax_get_role_robust, h2]

/-- Witness for C6 at a concrete input: a binding that raises TypeError on
the three-argument call and answers (0, AXWindow) on the two-argument call
produces a successful warm-up through the github wrapper. -/
theorem convention_fallback_witness :
    warm_up_app ⟨false, ⟨Except.error PyExn.typeError, Except.ok (PyVal.tup 0 (some "AXWindow"))⟩⟩
      = true :=
  (convention_fallback ⟨Except.error PyExn.typeError, Except.ok (PyVal.tup 0 (some "AXWindow"))⟩
      (PyVal.tup 0 (some "AXWindow")) "AXWindow").2.1 rfl rfl (by decide)

/-- Binding presenting only the three-argument convention: the two-argument
call raises TypeError, the three-argument call returns (0, AXWindow). -/
def bindingThreeOnly : Binding :=
  ⟨Except.ok (PyVal.tup 0 (some "AXWindow")), Except.error PyExn.typeError⟩

/-- C6 counterexample: against a binding that raises TypeError under the
attempted two-argument convention yet would return (0, AXWindow) under the
three-argument convention (as the github wrapper demonstrably obtains), the
macos read returns (-25212, None) and the attempt is classified partial:
the read is not retried with the alternate convention. -/
theorem macos_read_never_retries :
    ax_get_role_robust bindingThreeOnly = Except.ok (-25212, none) ∧
    ax_copy_attribute_value_robust bindingThreeOnly = Except.ok (0, some "AXWindow") ∧
    initialize_app_accessibility ⟨false, bindingThreeOnly⟩ = "partial" :=
  ⟨rfl, rfl, by decide⟩

/-- C7 (amended): the github permission gate never propagates an exception
(every trust-query outcome maps to a returned boolean) and maps a failing
trust query to false; the macos permission check instead propagates an
exception raised by the trust query; and whenever the gate yields false,
both front ends exit with status 1 while performing no enumeration, no
warm-up attempt and no printing. -/
theorem permission_gate_behaviour (t : Except PyExn Bool) (e : PyExn) (mode : MacosMode)
    (ws : List RawApp) (beh : Int → PidBehavior) (running : List (String × Int))
    (fragments : List String) :
    (∃ b : Bool, has_accessibility_permission t = Except.ok b) ∧
    has_accessibility_permission (Except.error e) = Except.ok false ∧
    check_accessibility_permissions (Except.error e) = Except.error e ∧
    macosMain false mode ws beh = ⟨1, [], ⟨[], [], []⟩, 0⟩ ∧
    githubMain false running fragments beh = ⟨1, 0, 0, 0⟩ := by
  refine ⟨?_, rfl, rfl, rfl, rfl⟩
  cases t with
  | ok b => exact ⟨b, rfl⟩
  | error e2 => exact ⟨false, rfl⟩

/-- C7 counterexample: when the trust query raises, the macos variant's
permission check propagates the exception to its caller instead of
returning false. -/
theorem check_permissions_propagates :
    check_accessibility_permissions (Except.error PyExn.other) = Except.error PyExn.other ∧
    check_accessibility_permissions (Except.error PyExn.other) ≠ Except.ok false := by
  refine ⟨rfl, ?_⟩
  intro h
  exact Except.noConfusion h

/-- C8: with permission granted, the list mode prints exactly the named
records of the Process Directory (a permutation of them, one line per
record), sorted case-insensitively by name, exits with status 0, and
performs no warm-up (the session is empty, so no accessibility handle is
created and no attribute read happens). -/
theorem list_mode_sorted_no_warmup (ws : List RawApp) (beh : Int → PidBehavior) :
    (macosMain true MacosMode.list ws beh).exit = 0 ∧
    (macosMain true MacosMode.list ws beh).printed = get_running_applications ws ∧
    ((macosMain true MacosMode.list ws beh).printed).Perm (namedApps ws) ∧
    List.Sorted nameKeyLe ((macosMain true MacosMode.list ws beh).printed) ∧
    (macosMain true MacosMode.list ws beh).session = ⟨[], [], []⟩ := by
  refine ⟨rfl, rfl, ?_, ?_, rfl⟩
  · exact List.perm_insertionSort nameKeyLe (namedApps ws)
  · exact List.sorted_insertionSort nameKeyLe (namedApps ws)

/-- Two attempted targets sharing the display name Claude. -/
def appsDup : List AppInfo := [⟨"Claude", 1, ""⟩, ⟨"Claude", 2, ""⟩]

/-- Per-pid behaviour where pid 1 succeeds and every other pid fails with
error -25211. -/
def behDup : Int → PidBehavior := fun p => if p == 1 then ⟨false, bOk⟩ else ⟨false, bFail⟩

/-- C9: the batch results dict of the macos variant is keyed by display
name: the outcome retained for a name is the classification of the last
filtered target carrying that name (later attempts overwrite earlier ones),
the three summary counts are taken over distinct names (their sum equals
the number of distinct filtered names), and on the concrete run over two
same-named targets the trace has 2 attempts while the retained dict is the
single entry carrying the second attempt's failure, so the counts sum to 1,
smaller than the number of attempts. -/
theorem results_keyed_by_name (beh : Int → PidBehavior) (app_infos : List AppInfo) (n : String) :
    ((initialize_multiple_apps beh app_infos).results.lookup n =
      (((filteredApps app_infos).filter (fun a => a.name == n)).getLast?).map
        (fun a => initialize_app_accessibility (beh a.pid))) ∧
    (countStatus (initialize_multiple_apps beh app_infos).results "success" +
        countStatus (initialize_multiple_apps beh app_infos).results "partial" +
        countStatus (initialize_multiple_apps beh app_infos).results "failure" =
      ((filteredApps app_infos).map AppInfo.name).dedup.length) ∧
    (initialize_multiple_apps behDup appsDup).trace.length = 2 ∧
    (initialize_multiple_apps behDup appsDup).results = [("Claude", "failure")] ∧
    countStatus (initialize_multiple_apps behDup appsDup).results "success" +
        countStatus (initialize_multiple_apps behDup appsDup).results "partial" +
        countStatus (initialize_multiple_apps behDup appsDup).results "failure" = 1 := by
  refine ⟨?_, ?_, by decide, by decide, by decide⟩
  · rw [initialize_multiple_apps_results, warmLoop_lookup]
    cases hl : ((filteredApps app_infos).filter (fun a => a.name == n)).getLast? with
    | none => rfl
    | some a => rfl
  · rw [initialize_multiple_apps_results]
    have hvals := warmLoop_vals beh (filteredApps app_infos) []
      (fun p hp => absurd hp (List.not_mem_nil p))
    rw [count_partition _ hvals]
    have hnodup : ((warmLoop beh (filteredApps app_infos) []).2.map Prod.fst).Nodup :=
      warmLoop_keys_nodup beh (filteredApps app_infos) [] (by simp)
    have hmem : ∀ m : String,
        m ∈ (warmLoop beh (filteredApps app_infos) []).2.map Prod.fst ↔
          m ∈ ((filteredApps app_infos).map AppInfo.name).dedup := by
      intro m
      rw [warmLoop_keys_mem, List.mem_dedup]
      simp
    have hperm : ((warmLoop beh (filteredApps app_infos) []).2.map Prod.fst).Perm
        (((filteredApps app_infos).map AppInfo.name).dedup) :=
      (List.perm_ext_iff_of_nodup hnodup (List.nodup_dedup _)).mpr hmem
    calc (warmLoop beh (filteredApps app_infos) []).2.length
        = ((warmLoop beh (filteredApps app_infos) []).2.map Prod.fst).length :=
          (List.length_map _ _).symm
      _ = ((filteredApps app_infos).map AppInfo.name).dedup.length := hperm.length_eq

/-- C10: both robust read wrappers are total at their interface: for every
binding behaviour the result is an ok pair of an integer error code and an
optional value (no exception propagates past them), and every internal
exception path yields the fixed pair (-1, None) in the github variant and
(-25212, None) in the macos variant. -/
theorem robust_wrappers_total (b : Binding) (e e2 : PyExn) :
    (∃ p : Int × Option String, ax_copy_attribute_value_robust b = Except.ok p) ∧
    (∃ p : Int × Option String, ax_get_role_robust b = Except.ok p) ∧
    (b.threeArg = Except.error PyExn.other →
      ax_copy_attribute_value_robust b = Except.ok (-1, none)) ∧
    (b.threeArg = Except.error PyExn.typeError → b.twoArg = Except.error e →
      ax_copy_attribute_value_robust b = Except.ok (-1, none)) ∧
    (b.twoArg = Except.error e2 → ax_get_role_robust b = Except.ok (-25212, none)) := by
  obtain ⟨t3, t2⟩ := b
  refine ⟨?_, ?_, ?_, ?_, ?_⟩
  · cases t3 with
    | ok v => exact ⟨interpVal v, rfl⟩
    | error ex =>
      cases ex with
      | typeError =>
        cases t2 with
        | ok v => exact ⟨interpVal v, rfl⟩
        | error ex2 => exact ⟨(-1, none), rfl⟩
      | other => exact ⟨(-1, none), rfl⟩
  · cases t2 with
    | ok v => exact ⟨interpVal v, rfl⟩
    | error ex => exact ⟨(-25212, none), rfl⟩
  · intro h3
    simp only at h3
    rw [h3]
    rfl
  · intro h3 h2
    simp only at h3 h2
    rw [ax_copy_attribute_value_robust]
    simp only [h3, h2]
  · intro h2
    simp only at h2
    rw [ax_get_role_robust]
    simp only [h2]

/-- Witness for C10 at a concrete input: a binding raising TypeError on the
three-argument call and another exception on the two-argument call drives
both wrappers through their exception paths. -/
theorem robust_wrappers_total_witness :
    ax_copy_attribute_value_robust ⟨Except.error PyExn.typeError, Except.error PyExn.other⟩
        = Except.ok (-1, none) ∧
    ax_get_role_robust ⟨Except.error PyExn.typeError, Except.error PyExn.other⟩
        = Except.ok (-25212, none) :=
  ⟨(robust_wrappers_total ⟨Except.error PyExn.typeError, Except.error PyExn.other⟩
      PyExn.other PyExn.other).2.2.2.1 rfl rfl,
   (robust_wrappers_total ⟨Except.error PyExn.typeError, Except.error PyExn.other⟩
      PyExn.other PyExn.other).2.2.2.2 rfl⟩
